import Mathlib

/-!
Verification of the momentum trading strategy engine (`fourelement.py`).

Shallow embedding conventions:
* machine floats (`np.float32`, Python `float`) are modelled by exact
  rationals `ℚ`; comparisons and arithmetic are exact;
* pandas `DataFrame` rows of `TradeManager.active_trades` are modelled by a
  `List Position` in row order; dropping rows keeps the order of survivors,
  as `drop(...).reset_index(drop=True)` does;
* `deque.append` is modelled by appending at the right end of a list;
* dates are modelled by integers (day numbers), so `(d2 - d1).days = d2 - d1`;
* Python `int(x)` (truncation toward zero) is `pyInt`;
* `np.random` draws are passed in as oracle functions (`starts`, `uniforms`):
  the code compares `np.random.random() < p` itself, so the continuation
  probability `p` stays visible in the embedding.
-/

namespace FourElement

/-- Python `int(x)`: truncation toward zero. -/
def pyInt (q : ℚ) : ℤ := if 0 ≤ q then ⌊q⌋ else ⌈q⌉

/-- Module constant `COMMISION = False` (fourelement.py line 28). -/
def COMMISION : Bool := false

/-- Trade direction; only `Long` is ever constructed by this program. -/
inductive Direction where
  | Long : Direction
  | Short : Direction
deriving DecidableEq

/-- One row of `TradeManager.active_trades` (fourelement.py lines 1052-1066).
`highest_close_since_entry` is NaN for shorts in the source; since the
program only creates long positions we keep it a plain rational. -/
structure Position where
  entry_date : ℤ
  direction : Direction
  multiplier : ℚ
  entry_price : ℚ
  stop_loss : ℚ
  take_profit : ℚ
  position_size : ℚ
  share_amount : ℤ
  commission : ℚ
  highest_close_since_entry : ℚ
  position_id : ℤ
  remaining_shares : ℤ
deriving DecidableEq

/-- One record appended to `TradeManager.trade_log` by `exit_pnl`
(fourelement.py lines 1150-1167). -/
structure TradeRec where
  entry_date : ℤ
  exit_date : ℤ
  direction : Direction
  entry_price : ℚ
  exit_price : ℚ
  shares : ℤ
  original_shares : ℤ
  pnl : ℚ
  gross_pnl : ℚ
  entry_commission : ℚ
  exit_commission : ℚ
  duration : ℤ
  exit_reason : String
  position_id : ℤ
  is_complete_exit : Bool
  remaining_after : ℤ
deriving DecidableEq

/-- The mutable state of a `TradeManager` (fourelement.py lines 589-617). -/
structure Ledger where
  portfolio_value : ℚ
  max_positions : ℕ
  position_count : ℤ
  allocated_capital : ℚ
  position_counter : ℤ
  trade_log : List TradeRec
  wins : List ℚ
  losses : List ℚ
  lengths : List ℤ
  active_trades : List Position
deriving DecidableEq

namespace TradeManager

/-- `TradeManager.__init__` (fourelement.py lines 590-617). -/
def init (initial_capital : ℚ) (max_positions : ℕ) : Ledger :=
  { portfolio_value := initial_capital
    max_positions := max_positions
    position_count := 0
    allocated_capital := 0
    position_counter := 0
    trade_log := []
    wins := []
    losses := []
    lengths := []
    active_trades := [] }

/-- `TradeManager.calculate_commission` (fourelement.py lines 1084-1109);
with `COMMISION = False` this is constantly `0`.  The `True` branch keeps
the chosen percentage model `max(1.0, shares*price*0.0005)`. -/
def calculate_commission (shares : ℤ) (price : ℚ) : ℚ :=
  if COMMISION then max 1 ((shares : ℚ) * price * (5 / 10000)) else 0

/-- `TradeManager.exit_pnl` (fourelement.py lines 1111-1168): computes the
gross and net PnL of exiting `shares_to_exit` shares of `trade` at
`exit_price`, records the win/loss and the closed-trade record, and returns
the net PnL. -/
def exit_pnl (s : Ledger) (trade : Position) (exit_date : ℤ) (exit_price : ℚ)
    (shares_to_exit : ℤ) (reason : String) : Ledger × ℚ :=
  let is_complete_exit := trade.remaining_shares ≤ shares_to_exit
  let gross_pnl :=
    match trade.direction with
    | .Long => (exit_price - trade.entry_price) * (shares_to_exit : ℚ)
    | .Short => (trade.entry_price - exit_price) * (shares_to_exit : ℚ)
  let duration := exit_date - trade.entry_date
  let exit_commission := calculate_commission shares_to_exit exit_price
  let pnl_net := gross_pnl - exit_commission
  let s := { s with lengths := s.lengths ++ [duration] }
  let s :=
    if 0 < pnl_net then { s with wins := s.wins ++ [pnl_net] }
    else { s with losses := s.losses ++ [pnl_net] }
  let record : TradeRec :=
    { entry_date := trade.entry_date
      exit_date := exit_date
      direction := trade.direction
      entry_price := trade.entry_price
      exit_price := exit_price
      shares := shares_to_exit
      original_shares := trade.share_amount
      pnl := pnl_net
      gross_pnl := gross_pnl
      entry_commission := trade.commission
      exit_commission := exit_commission
      duration := duration
      exit_reason := reason
      position_id := trade.position_id
      is_complete_exit := is_complete_exit
      remaining_after := if is_complete_exit then 0 else trade.remaining_shares - shares_to_exit }
  ({ s with trade_log := s.trade_log ++ [record] }, pnl_net)

/-- The body of the `for idx, trade in long_trades.iterrows()` loop of
`TradeManager.process_exits` (fourelement.py lines 885-967) for a single
long trade.  `trade` is the row snapshot taken when the loop started (so
the take-profit and stop-loss branches see the pre-trim share count, as in
the source).  Returns the updated ledger scalars, the PnL contributed by
this trade, and the surviving row (`none` when the row lands on the
removal list). -/
def processOneExit (exit_date : ℤ) (price : ℚ) (Trim : ℚ)
    (reason_override : Option String) (s : Ledger) (trade : Position) :
    Ledger × ℚ × Option Position :=
  let current_shares := trade.remaining_shares
  if current_shares ≤ 0 then (s, 0, none)
  else
    let base_signal_exit_reason :=
      if 0 < Trim then "Partial Signal Exit" else "Full Signal Exit"
    let final_exit_reason := reason_override.getD base_signal_exit_reason
    if 0 < Trim then
      -- partial exit; the source does not `continue` here, so control then
      -- falls through to the take-profit and stop-loss checks below
      let shares_to_exit := pyInt ((current_shares : ℚ) * Trim)
      let step1 : Ledger × ℚ × Option Position :=
        if 0 < shares_to_exit then
          let outA := exit_pnl s trade exit_date price shares_to_exit final_exit_reason
          let sA := { outA.1 with
            portfolio_value := outA.1.portfolio_value + outA.2
            allocated_capital := outA.1.allocated_capital - price * (shares_to_exit : ℚ) }
          let remaining_shares := current_shares - shares_to_exit
          if 0 < remaining_shares then
            (sA, outA.2, some { trade with remaining_shares := remaining_shares })
          else
            ({ sA with position_count := sA.position_count - 1 }, outA.2, none)
        else (s, 0, some trade)
      if trade.take_profit ≤ price then
        let outB := exit_pnl step1.1 trade exit_date price current_shares "Take Profit"
        ({ outB.1 with
            portfolio_value := outB.1.portfolio_value + outB.2
            allocated_capital := outB.1.allocated_capital - price * (current_shares : ℚ)
            position_count := outB.1.position_count - 1 }, step1.2.1 + outB.2, none)
      else if price ≤ trade.stop_loss then
        let outB := exit_pnl step1.1 trade exit_date price current_shares "Stop Loss"
        ({ outB.1 with
            portfolio_value := outB.1.portfolio_value + outB.2
            allocated_capital := outB.1.allocated_capital - price * (current_shares : ℚ)
            position_count := outB.1.position_count - 1 }, step1.2.1 + outB.2, none)
      else step1
    else
      -- full exit, then `continue`
      let outA := exit_pnl s trade exit_date price current_shares final_exit_reason
      ({ outA.1 with
          portfolio_value := outA.1.portfolio_value + outA.2
          allocated_capital := outA.1.allocated_capital - price * (current_shares : ℚ)
          position_count := outA.1.position_count - 1 }, outA.2, none)

/-- The fold step of `process_exits` over the rows of `active_trades`:
long rows go through `processOneExit`; rows of any other direction are not
in `long_trades` and are kept untouched. -/
def exitStep (current_date : ℤ) (price : ℚ) (Trim : ℚ) (reason_override : Option String)
    (acc : Ledger × ℚ × List Position) (trade : Position) : Ledger × ℚ × List Position :=
  if trade.direction = .Long then
    let out := processOneExit current_date price Trim reason_override acc.1 trade
    (out.1, acc.2.1 + out.2.1, acc.2.2 ++ out.2.2.toList)
  else (acc.1, acc.2.1, acc.2.2 ++ [trade])

/-- `TradeManager.process_exits` (fourelement.py lines 870-974).  Applies a
0.1% sell slippage to the price, walks the rows of `active_trades` in
order, and drops the rows collected for removal while keeping the
survivors in order. -/
def process_exits (s : Ledger) (current_date : ℤ) (current_price : ℚ)
    (Trim : ℚ := 0) (reason_override : Option String := none) : Ledger × ℚ :=
  if s.active_trades.isEmpty then (s, 0)
  else
    let price := current_price * (1 - 1 / 1000)
    let out := s.active_trades.foldl (exitStep current_date price Trim reason_override)
      ({ s with active_trades := [] }, 0, [])
    ({ out.1 with active_trades := out.2.2 }, out.2.1)

/-- The per-row stop update of `TradeManager.trailing_stops`
(fourelement.py lines 801-845): raise `highest_close_since_entry`, pick the
ADX-regime ATR multiplier and the profit-lock multiplier, and apply the
two floors (never move a stop backward; when currently profitable, keep the
stop at or above `entry + 0.65 × unrealized gain`). -/
def trailingUpdate (current_price current_atr adx_value : ℚ) (t : Position) : Position :=
  let highest := max t.highest_close_since_entry current_price
  let base_multiplier : ℚ :=
    if adx_value < 20 then 1
    else if adx_value ≤ 40 then 2
    else 3 / 2
  let profit_pct := (highest - t.entry_price) / t.entry_price
  let profit_factor : ℚ :=
    if 1 / 10 < profit_pct then 3 / 2
    else if 1 / 20 < profit_pct then 6 / 5
    else 1
  let final_multiplier := base_multiplier * profit_factor
  let new_stop := highest - final_multiplier * current_atr
  let new_stop := max new_stop t.stop_loss
  let unrealized_gains := current_price - t.entry_price
  let new_stop :=
    if 0 < unrealized_gains then max new_stop (t.entry_price + unrealized_gains * (13 / 20))
    else new_stop
  { t with highest_close_since_entry := highest, stop_loss := new_stop }

/-- `TradeManager.trailing_stops` (fourelement.py lines 790-868): update all
stops, then, for every hit row, call `process_exits` with `Trim = 0` and
reason `"Trailing Stop"` (the source guards each call by
`idx < len(self.active_trades)`; since the first full-exit call empties the
long rows, later calls act on what is left, which `process_exits` leaves
unchanged — folding the call over the hit rows is observably the same).
Returns whether any stop was hit. -/
def trailing_stops (s : Ledger) (current_price : ℚ) (current_date : ℤ)
    (current_atr : ℚ) (adx_value : ℚ) : Ledger × Bool :=
  if s.active_trades.isEmpty then (s, false)
  else
    let updated := s.active_trades.map (trailingUpdate current_price current_atr adx_value)
    let s1 := { s with active_trades := updated }
    let stops_hit := updated.filter (fun t => current_price ≤ t.stop_loss)
    if stops_hit.isEmpty then (s1, false)
    else
      let s2 := stops_hit.foldl
        (fun acc _ => (process_exits acc current_date current_price 0 (some "Trailing Stop")).1) s1
      (s2, true)

/-- `TradeManager.process_entry` (fourelement.py lines 976-1082).
`entry_params` is passed as the five scalars it carries
(`price`, `portfolio_value`, `risk`, `atr`, `adx`).  Returns the updated
ledger and whether the entry was accepted. -/
def process_entry (s : Ledger) (current_date : ℤ) (price portfolio_value risk atr adx : ℚ)
    (direction : Direction) : Ledger × Bool :=
  let is_long := direction = .Long
  let direction_mult : ℚ := if is_long then 1 else -1
  -- 1. ADX-based ATR multiplier and stop-loss
  let regime : ℚ × ℚ :=
    if adx < 20 then (1, risk * (1 / 2))
    else if adx ≤ 40 then (5 / 2, risk)
    else (3 / 2, risk * (6 / 5))
  let atr_multiplier := regime.1
  let risk_pct := regime.2
  let stop_distance := atr * atr_multiplier
  let initial_stop := price - stop_distance * direction_mult
  -- 2. Position sizing
  let risk_per_share := |price - initial_stop|
  if risk_per_share < 1 / 10 ^ 9 then (s, false)
  else
    let max_risk_amount := portfolio_value * risk_pct
    let shares_by_risk := pyInt (max_risk_amount / risk_per_share)
    let shares := shares_by_risk
    let position_dollar_amount := (shares : ℚ) * price
    let actual_position_size := position_dollar_amount / portfolio_value
    let max_total_exposure : ℚ := 95 / 100
    let current_exposure :=
      (s.active_trades.map (fun t => (t.remaining_shares : ℚ) * t.entry_price)).sum
        / portfolio_value
    let total_exposure := current_exposure + actual_position_size
    let sized : Option (ℤ × ℚ × ℚ) :=
      if max_total_exposure < total_exposure then
        let available_exposure := max_total_exposure - current_exposure
        if 0 < available_exposure then
          let adjusted_shares := pyInt (available_exposure * portfolio_value / price)
          let shares := min shares adjusted_shares
          let position_dollar_amount := (shares : ℚ) * price
          some (shares, position_dollar_amount, position_dollar_amount / portfolio_value)
        else none
      else some (shares, position_dollar_amount, actual_position_size)
    match sized with
    | none => (s, false)
    | some (shares, position_dollar_amount, actual_position_size) =>
      -- 3. Take-profit calculation (ADX-boosted)
      let base_profit_distance := 3 * atr
      let profit_multiplier : ℚ := if 40 < adx then 1 + adx / 100 else 1
      let take_profit := price + base_profit_distance * profit_multiplier * direction_mult
      -- 4. Final checks
      let available_capital := s.portfolio_value - s.allocated_capital
      if available_capital < position_dollar_amount ∨ shares ≤ 0 then (s, false)
      else
        let commission := calculate_commission shares price
        let min_position_value := portfolio_value * (1 / 1000)
        if position_dollar_amount < min_position_value then (s, false)
        else
          -- 5. Create trade
          let new_trade : Position :=
            { entry_date := current_date
              direction := direction
              multiplier := direction_mult
              entry_price := price
              stop_loss := initial_stop
              take_profit := take_profit
              position_size := actual_position_size
              share_amount := shares
              commission := commission
              highest_close_since_entry := price
              position_id := s.position_counter
              remaining_shares := shares }
          ({ s with
              position_count := s.position_count + 1
              active_trades := s.active_trades ++ [new_trade]
              allocated_capital := s.allocated_capital + position_dollar_amount
              portfolio_value := s.portfolio_value - commission
              position_counter := s.position_counter + 1 }, true)

/-- `TradeManager.unrealized_pnl` (fourelement.py lines 620-626). -/
def unrealized_pnl (s : Ledger) (current_price : ℚ) : ℚ :=
  (s.active_trades.map
    (fun t => (current_price - t.entry_price) * (t.remaining_shares : ℚ) * t.multiplier)).sum

end TradeManager

/-- The quantity the spec's ledger invariant compares `allocated_capital`
against: `Σ (remaining_shares × entry_price)` over the open positions. -/
def openPositionCost (s : Ledger) : ℚ :=
  (s.active_trades.map (fun t => (t.remaining_shares : ℚ) * t.entry_price)).sum

/-! ## Performance statistics (`risk_metrics`, `trade_statistics`) -/

/-- `np.mean` over a list of rationals. -/
def npMean (xs : List ℚ) : ℚ := xs.sum / xs.length

/-- The square of `np.std` (population variance).  `np.std xs` itself is
`Real.sqrt (npVariance xs)`; since square root is monotone, every
comparison `np.std xs > c` with `c ≥ 0` is embedded as
`npVariance xs > c ^ 2`. -/
def npVariance (xs : List ℚ) : ℚ :=
  (xs.map (fun x => (x - npMean xs) ^ 2)).sum / xs.length

/-- `np.sign` on rationals. -/
def npSign (q : ℚ) : ℚ := if 0 < q then 1 else if q < 0 then -1 else 0

/-- A Sharpe/Sortino value as `risk_metrics` returns it.  `val v` is an
exactly-representable return value; `scaled mean var` stands for the
irrational `(mean / Real.sqrt var) * Real.sqrt 252` computed in the
above-threshold branch (its numeric value is irrelevant to every claim, so
it is carried symbolically by the data that determine it). -/
inductive RiskRatio where
  | val (v : ℚ) : RiskRatio
  | scaled (mean variance : ℚ) : RiskRatio
deriving DecidableEq

/-- `min_std_threshold = 1e-8` (fourelement.py line 1187), squared, for
comparison against `npVariance` values. -/
def minStdThresholdSq : ℚ := (1 / 10 ^ 8) ^ 2

/-- `risk_metrics` (fourelement.py lines 1171-1205): Sharpe and Sortino
ratios with the numerical safeguards.  `np.unique` is `List.dedup`. -/
def risk_metrics (returns_array : List ℚ) (risk_free_daily : ℚ) : RiskRatio × RiskRatio :=
  if returns_array.length ≤ 1 then (.val 0, .val 0)
  else if returns_array.dedup.length ≤ 1 then (.val 0, .val 0)
  else
    let excess_returns := returns_array.map (fun r => r - risk_free_daily)
    let returns_mean := npMean excess_returns
    let returns_var := npVariance excess_returns
    let sharpe : RiskRatio :=
      if minStdThresholdSq < returns_var then .scaled returns_mean returns_var
      else if returns_mean = 0 then .val 0 else .val (npSign returns_mean * 5)
    let downside_returns := returns_array.filter (fun r => r < 0)
    let downside_var := if 0 < downside_returns.length then npVariance downside_returns else 0
    let sortino : RiskRatio :=
      if minStdThresholdSq < downside_var then
        .scaled (npMean returns_array - risk_free_daily) downside_var
      else if returns_mean = 0 then .val 0 else .val (npSign returns_mean * 5)
    (sharpe, sortino)

/-- The default `[0.0]` array `trade_statistics` substitutes for an empty
win/loss list (fourelement.py lines 1211-1212). -/
def winsArray (xs : List ℚ) : List ℚ := if xs.isEmpty then [0] else xs

/-- A profit-factor value: `inf` is `np.inf`, `val q` a finite value. -/
inductive ProfitFactor where
  | inf : ProfitFactor
  | val (q : ℚ) : ProfitFactor
deriving DecidableEq

/-- The profit-factor computation of `trade_statistics`
(fourelement.py lines 1211-1235): gross profit and gross loss are the sums
of the (defaulted) win and loss arrays; when `gross_loss == 0` the factor
is `np.inf` if `gross_profit > 0` and `1.0` otherwise, else
`abs(gross_profit / gross_loss)`. -/
def profit_factor (wins losses : List ℚ) : ProfitFactor :=
  let gross_profit := (winsArray wins).sum
  let gross_loss := (winsArray losses).sum
  if gross_loss = 0 then
    if 0 < gross_profit then .inf else .val 1
  else .val |gross_profit / gross_loss|

/-! ## Signal scorer column handling (`signals`) -/

/-- Module constant `FAST = 20` (fourelement.py line 72). -/
def FAST : ℕ := 20

/-- Module constant `SLOW = 50` (fourelement.py line 73). -/
def SLOW : ℕ := 50

/-- The column list `signals` validates (fourelement.py lines 375-378).
Note that it contains neither `VIX` nor any of the `*_raw` driver columns,
although the body reads them. -/
def required_indicator_cols : List String :=
  [toString FAST ++ "_ma", toString SLOW ++ "_ma", "RSI", "Close", "Volume", "High", "Low",
   "ATR", "ADX", "Volume_MA20", "Open", "volume_confirmed", "weekly_uptrend"]

/-- `df[name]` on a frame with column set `cols`: raises `KeyError` when
the column is absent.  Only presence matters to the control flow the
claims concern, so the value is `Unit`. -/
def getCol (cols : List String) (name : String) : Except String Unit :=
  if name ∈ cols then .ok () else .error name

/-- The two outcomes of a completed `signals` call: the default (empty)
signal frame returned on failed validation, or the fully populated one. -/
inductive SignalsResult where
  | defaultSignals : SignalsResult
  | fullSignals : SignalsResult
deriving DecidableEq

/-- The column-access skeleton of `signals` (fourelement.py lines 365-459),
over the set of columns present in the input frame: validate
`required_indicator_cols` and return the default frame if any is missing
(lines 380-383); otherwise read, in source order, the arrays of lines
386-390 (`Close`, `ADX`, the two MA columns, `VIX`), the raw driver
columns of lines 402-420, and `RSI` (line 444), each read raising
`KeyError` when the column is absent. -/
def signals (cols : List String) : Except String SignalsResult :=
  let missing_cols := required_indicator_cols.filter (fun c => ¬ c ∈ cols)
  if ¬ missing_cols.isEmpty then .ok .defaultSignals
  else do
    _ ← getCol cols "Close"
    _ ← getCol cols "ADX"
    _ ← getCol cols (toString FAST ++ "_ma")
    _ ← getCol cols (toString SLOW ++ "_ma")
    _ ← getCol cols "VIX"
    _ ← getCol cols "price_roc_raw"
    _ ← getCol cols "ma_dist_raw"
    _ ← getCol cols "rsi_ideal_zone_raw"
    _ ← getCol cols "adx_slope_raw"
    _ ← getCol cols "vol_accel_raw"
    _ ← getCol cols "atr_pct_raw"
    _ ← getCol cols "vix_factor_raw"
    _ ← getCol cols "RSI"
    .ok .fullSignals

/-! ## Dependent bootstrap sampler (`stationary_bootstrap`) -/

/-- The index recurrence built by the inner loop of `stationary_bootstrap`
(fourelement.py lines 1776-1784): `indices[0]` is the first drawn start;
`indices[j] = starts j` when the jump draw fires at step `j`, else the
previous index advanced by 1 modulo `n`. -/
def bootIndex (n : ℕ) (starts : ℕ → ℕ) (conts : ℕ → Bool) : ℕ → ℕ
  | 0 => starts 0
  | j + 1 => if conts (j + 1) then starts (j + 1) else (bootIndex n starts conts j + 1) % n

/-- `stationary_bootstrap` (fourelement.py lines 1745-1793).  The
pre-drawn randomness is passed as oracles: `starts i j` models
`all_random_starts[i, j]` (uniform on `[0, n)`) and `uniforms i j` models
`np.random.random(...)[i, j]` (uniform on `[0, 1)`); the jump test
`uniforms i j < p` with `p = 1 / max 1 block_size` is the source's
line 1755.  The `seed` parameter is accepted and never read, as in the
source.  Batching in groups of 50 only concatenates the per-sample results
in order, so the output is the in-order list of samples; each sample is
`data.iloc[indices]`, i.e. the rows of `data` at the generated indices. -/
def stationary_bootstrap {α : Type} [Inhabited α] (data : List α) (block_size : ℤ)
    (num_samples : ℕ) (sample_length : Option ℕ) (seed : Option ℕ)
    (starts : ℕ → ℕ → ℕ) (uniforms : ℕ → ℕ → ℚ) : List (List α) :=
  let n := data.length
  let L := sample_length.getD n
  let current_block_size := max 1 block_size
  let p : ℚ := 1 / current_block_size
  let conts : ℕ → ℕ → Bool := fun i j => uniforms i j < p
  (List.range num_samples).map (fun i =>
    if n = 0 then []
    else (List.range L).map (fun j => data.getD (bootIndex n (starts i) (conts i) j) default))

/-- The index sequence in the words of the spec (§4.8): "draw a starting
index uniformly; at each subsequent step, with probability p jump to a
new uniformly-drawn index, else advance the previous index by 1 modulo
series length (wrap-around)" — with the probability-`p` jump event
realised as `uniform draw < p`.  Kept separate from `bootIndex` so the
source-side and spec-side definitions can be compared. -/
def specIndexSeq (n : ℕ) (starts : ℕ → ℕ) (jumps : ℕ → Bool) : ℕ → ℕ
  | 0 => starts 0
  | j + 1 => if jumps (j + 1) then starts (j + 1) else (specIndexSeq n starts jumps j + 1) % n

/-! ## Walk-forward decay ratio -/

/-- The per-step decay-ratio computation of `walk_forward_analysis`
(fourelement.py lines 2201-2221): a side is valid when it recorded at
least one trade; an invalid side's Sharpe is overridden to the neutral
0.0; when both sides are valid the decay ratio is
`1 - |oos| / max |train| 0.1` if the two Sharpes are both non-negative or
both negative and the fixed penalty `1.5` otherwise; when either side is
invalid the recorded value is `np.nan`, modelled as `none`. -/
def decay_ratio (train_trades oos_trades : ℕ) (train_sharpe oos_sharpe : ℚ) : Option ℚ :=
  let is_valid_train_period := 0 < train_trades
  let is_valid_oos_period := 0 < oos_trades
  let oos_sharpe := if ¬ is_valid_oos_period then 0 else oos_sharpe
  let train_sharpe := if ¬ is_valid_train_period then 0 else train_sharpe
  if is_valid_train_period ∧ is_valid_oos_period then
    if (0 ≤ train_sharpe ∧ 0 ≤ oos_sharpe) ∨ (train_sharpe < 0 ∧ oos_sharpe < 0) then
      some (1 - |oos_sharpe| / max |train_sharpe| (1 / 10))
    else some (3 / 2)
  else none

/-! ## Theorems -/

namespace Claims

open TradeManager

/-- C1.  The ledger invariant `allocated_capital = Σ (remaining_shares ×
entry_price)` over open positions is reachable-state false: `process_entry`
credits `allocated_capital` with the entry notional, but `process_exits`
debits it with the slippage-adjusted *exit* notional (fourelement.py
lines 913, 932, 948, 964 vs 1079).  Entering 10 shares at price 100
(allocated 1000, invariant holds) and then fully exiting at price 200
leaves no open position but `allocated_capital = 1000 − 199.8 × 10 = −998`,
far beyond any floating tolerance, while the invariant sum is `0`. -/
theorem allocated_capital_invariant_violated :
    (process_entry (init 25000 5) 0 100 25000 (1 / 100) 10 30 .Long).2 = true ∧
    (let s1 := (process_entry (init 25000 5) 0 100 25000 (1 / 100) 10 30 .Long).1
     s1.allocated_capital = openPositionCost s1 ∧ s1.allocated_capital = 1000 ∧
     (let s2 := (process_exits s1 1 200 0 none).1
      s2.active_trades = [] ∧ openPositionCost s2 = 0 ∧
      s2.allocated_capital = -998 ∧ s2.allocated_capital ≠ openPositionCost s2)) := by
  decide!

/-- C2.  In one `process_exits` call the caller-specified trim is *not*
the only check that fires for a position: after a partial trim the source
falls through to the take-profit and stop-loss checks (there is no
`continue` after the `Trim > 0` branch, fourelement.py lines 900-935), and
those checks still use the pre-trim share count.  For a 10-share position
(entry 100, take-profit 130) trimmed with `Trim = 0.5` at price 200, both
the trim (5 shares) and the take-profit exit (10 shares) fire, logging two
exits totalling 15 shares from a 10-share position. -/
theorem process_exits_two_checks_fire :
    (let s1 := (process_entry (init 25000 5) 0 100 25000 (1 / 100) 10 30 .Long).1
     s1.active_trades.map (fun t => (t.take_profit, t.remaining_shares)) = [(130, 10)] ∧
     (let out := process_exits s1 1 200 (1 / 2) none
      out.1.trade_log.map (fun r => (r.exit_reason, r.shares)) =
        [("Partial Signal Exit", 5), ("Take Profit", 10)] ∧
      (out.1.trade_log.map (fun r => r.shares)).sum = 15 ∧ (10 : ℤ) < 15)) := by
  decide!

/-- C9.  The take-profit boost is *not* capped at 1.4×: for an accepted
long entry with ADX = 60 the multiplier is `1 + 60/100 = 1.6`, so the
stored take-profit is `100 + 3×10×1.6 = 148`, strictly above the
`100 + 3×10×1.4 = 142` the claim (and the source's own `# Up to 1.4x`
comment, fourelement.py line 1033) allows. -/
theorem take_profit_exceeds_claimed_bound :
    (process_entry (init 25000 5) 0 100 25000 (1 / 100) 10 60 .Long).2 = true ∧
    (process_entry (init 25000 5) 0 100 25000 (1 / 100) 10 60 .Long).1.active_trades.map
      (fun t => t.take_profit) = [148] ∧
    (148 : ℚ) = 100 + 3 * 10 * (1 + 60 / 100) ∧
    (100 + 3 * 10 * (14 / 10) : ℚ) < 148 := by
  decide!

/-- The column set of a frame that carries every column `signals` touches
*except* `VIX`: the whole validated list plus all the raw driver columns. -/
def allColsExceptVIX : List String :=
  required_indicator_cols ++
    ["price_roc_raw", "ma_dist_raw", "rsi_ideal_zone_raw", "adx_slope_raw",
     "vol_accel_raw", "atr_pct_raw", "vix_factor_raw"]

/-- C6.  A frame missing only the required field `VIX` does *not* get the
empty/default signal set: `VIX` is absent from `required_indicator_cols`
(fourelement.py lines 375-378), so validation passes and the read
`df['VIX']` at line 390 raises `KeyError` instead of returning default
signals.  (A column that *is* on the validated list — e.g. `ATR` —
missing does give the default set, which is the behaviour the claim
describes.) -/
theorem signals_missing_vix_raises :
    signals allColsExceptVIX = .error "VIX" ∧ ¬ "VIX" ∈ allColsExceptVIX ∧
    signals (allColsExceptVIX.erase "ATR") = .ok .defaultSignals := by
  exact ⟨rfl, by decide, rfl⟩

/-- C4 counterexample.  A constant returns array (std = 0, below the 1e-8
threshold) with non-zero mean hits the `np.unique` early return
(fourelement.py lines 1177-1179) and yields Sharpe 0.0, not the
`sign(mean) × 5.0` the claim requires: `risk_metrics [0.05, 0.05] 0`
returns `(0, 0)` although the excess mean is `0.05 > 0`. -/
theorem risk_metrics_constant_array_counterexample :
    risk_metrics [1 / 20, 1 / 20] 0 = (.val 0, .val 0) ∧
    npMean ([1 / 20, 1 / 20].map (fun r => r - 0)) = 1 / 20 ∧ (0 : ℚ) < 1 / 20 ∧
    npVariance ([1 / 20, 1 / 20].map (fun r => r - 0)) = 0 ∧
    (0 : ℚ) < minStdThresholdSq ∧
    RiskRatio.val 0 ≠ RiskRatio.val (npSign (1 / 20) * 5) := by
  decide!

/-- C10.  The `seed` parameter of `stationary_bootstrap` is accepted but
never read (fourelement.py lines 1745-1793), so the output is independent
of it: two calls that agree on everything except the seed — including the
`seed=42` call from `monte_carlo` — return identical samples; the result
depends only on the ambient random draws. -/
theorem stationary_bootstrap_seed_independent {α : Type} [Inhabited α] (data : List α)
    (block_size : ℤ) (num_samples : ℕ) (sample_length : Option ℕ) (seed1 seed2 : Option ℕ)
    (starts : ℕ → ℕ → ℕ) (uniforms : ℕ → ℕ → ℚ) :
    stationary_bootstrap data block_size num_samples sample_length seed1 starts uniforms =
      stationary_bootstrap data block_size num_samples sample_length seed2 starts uniforms :=
  rfl

/-- C8.  When both walk-forward windows recorded at least one trade, the
decay ratio is `1 − |OOS Sharpe| / max(|train Sharpe|, 0.1)` if the two
Sharpe ratios are both non-negative or both negative, and exactly the
fixed penalty `1.5` when they differ in sign. -/
theorem decay_ratio_spec (train_trades oos_trades : ℕ) (train_sharpe oos_sharpe : ℚ)
    (htrain : 0 < train_trades) (hoos : 0 < oos_trades) :
    ((0 ≤ train_sharpe ∧ 0 ≤ oos_sharpe) ∨ (train_sharpe < 0 ∧ oos_sharpe < 0) →
      decay_ratio train_trades oos_trades train_sharpe oos_sharpe =
        some (1 - |oos_sharpe| / max |train_sharpe| (1 / 10))) ∧
    (¬ ((0 ≤ train_sharpe ∧ 0 ≤ oos_sharpe) ∨ (train_sharpe < 0 ∧ oos_sharpe < 0)) →
      decay_ratio train_trades oos_trades train_sharpe oos_sharpe = some (3 / 2)) := by
  unfold decay_ratio
  simp only [htrain, hoos, not_true, if_neg, and_self, if_true, ite_false, ite_true,
    not_lt, decide_True]
  constructor <;> intro h <;> simp [h]

/-- Witness for `decay_ratio_spec`: with one trade on each side and
Sharpes 2 (train) and 1 (OOS), both non-negative, the recorded decay is
`1 − |1| / max |2| 0.1`. -/
theorem decay_ratio_spec_witness :
    (0 < 1 ∧ 0 < 1 ∧ (((0:ℚ) ≤ 2 ∧ (0:ℚ) ≤ 1) ∨ ((2:ℚ) < 0 ∧ (1:ℚ) < 0))) ∧
    decay_ratio 1 1 2 1 = some (1 - |(1:ℚ)| / max |(2:ℚ)| (1 / 10)) :=
  ⟨⟨Nat.one_pos, Nat.one_pos, Or.inl ⟨by norm_num, by norm_num⟩⟩,
    (decay_ratio_spec 1 1 2 1 Nat.one_pos Nat.one_pos).1 (Or.inl ⟨by norm_num, by norm_num⟩)⟩

/-- Sum of non-positive rationals is non-positive. -/
lemma list_sum_nonpos : ∀ (l : List ℚ), (∀ x ∈ l, x ≤ 0) → l.sum ≤ 0 := by
  intro l
  induction l with
  | nil => intro _; simp
  | cons a t ih =>
    intro h
    have ha := h a (by simp)
    have ht := ih fun x hx => h x (by simp [hx])
    simp only [List.sum_cons]
    linarith

/-- C5.  For every trade log (wins strictly positive, losses non-positive,
as `exit_pnl` records them): gross profit is non-negative and gross loss
non-positive; the profit factor is exactly `1.0` when both are `0`; it is
`+∞` exactly when gross loss is `0` and gross profit strictly positive;
and otherwise (gross loss non-zero) it is `|gross profit / gross loss|`. -/
theorem profit_factor_spec (wins losses : List ℚ)
    (hw : ∀ w ∈ wins, 0 < w) (hl : ∀ l ∈ losses, l ≤ 0) :
    0 ≤ (winsArray wins).sum ∧ (winsArray losses).sum ≤ 0 ∧
    ((winsArray wins).sum = 0 ∧ (winsArray losses).sum = 0 →
      profit_factor wins losses = .val 1) ∧
    (profit_factor wins losses = .inf ↔
      (winsArray losses).sum = 0 ∧ 0 < (winsArray wins).sum) ∧
    ((winsArray losses).sum ≠ 0 →
      profit_factor wins losses = .val |(winsArray wins).sum / (winsArray losses).sum|) := by
  have hgp : 0 ≤ (winsArray wins).sum := by
    unfold winsArray
    split
    · simp
    · exact List.sum_nonneg fun x hx => le_of_lt (hw x hx)
  have hgl : (winsArray losses).sum ≤ 0 := by
    unfold winsArray
    split
    · simp
    · exact list_sum_nonpos losses hl
  refine ⟨hgp, hgl, ?_, ?_, ?_⟩
  · intro ⟨h1, h2⟩
    unfold profit_factor
    rw [if_pos h2, if_neg (by rw [h1]; exact lt_irrefl 0)]
  · unfold profit_factor
    constructor
    · intro h
      by_cases h2 : (winsArray losses).sum = 0
      · rw [if_pos h2] at h
        by_cases h3 : 0 < (winsArray wins).sum
        · exact ⟨h2, h3⟩
        · rw [if_neg h3] at h; exact absurd h (by simp)
      · rw [if_neg h2] at h; exact absurd h (by simp)
    · intro ⟨h2, h3⟩
      rw [if_pos h2, if_pos h3]
  · intro h2
    unfold profit_factor
    rw [if_neg h2]

/-- Witness for `profit_factor_spec`: one win of 3, one loss of −2; gross
profit 3, gross loss −2 ≠ 0, so the factor is `|3 / (−2)|`. -/
theorem profit_factor_spec_witness :
    ((∀ w ∈ [(3:ℚ)], 0 < w) ∧ (∀ l ∈ [(-2:ℚ)], l ≤ 0) ∧ (winsArray [(-2:ℚ)]).sum ≠ 0) ∧
    profit_factor [3] [-2] = .val |(winsArray [(3:ℚ)]).sum / (winsArray [(-2:ℚ)]).sum| :=
  ⟨⟨by norm_num, by norm_num, by norm_num [winsArray]⟩,
    (profit_factor_spec [3] [-2] (by norm_num) (by norm_num)).2.2.2.2
      (by norm_num [winsArray])⟩

/-- C4 (amended).  For a returns array with at least two elements and at
least two distinct values, whenever the excess-return standard deviation
is at or below the `1e-8` threshold (equivalently, its square — the
variance — is at or below `1e-16`), the Sharpe ratio is exactly `0` when
the excess mean is exactly `0` and `±5` matching the sign of the mean
otherwise; the Sortino ratio obeys the same safeguard with the
downside-only standard deviation in place of the full one. -/
theorem risk_metrics_safeguard (returns_array : List ℚ) (risk_free_daily : ℚ)
    (hlen : 2 ≤ returns_array.length) (hdis : 2 ≤ returns_array.dedup.length) :
    (npVariance (returns_array.map (fun r => r - risk_free_daily)) ≤ minStdThresholdSq →
      ((npMean (returns_array.map (fun r => r - risk_free_daily)) = 0 →
          (risk_metrics returns_array risk_free_daily).1 = .val 0) ∧
       (0 < npMean (returns_array.map (fun r => r - risk_free_daily)) →
          (risk_metrics returns_array risk_free_daily).1 = .val 5) ∧
       (npMean (returns_array.map (fun r => r - risk_free_daily)) < 0 →
          (risk_metrics returns_array risk_free_daily).1 = .val (-5)))) ∧
    ((if 0 < (returns_array.filter (fun r => r < 0)).length
        then npVariance (returns_array.filter (fun r => r < 0)) else 0) ≤ minStdThresholdSq →
      ((npMean (returns_array.map (fun r => r - risk_free_daily)) = 0 →
          (risk_metrics returns_array risk_free_daily).2 = .val 0) ∧
       (0 < npMean (returns_array.map (fun r => r - risk_free_daily)) →
          (risk_metrics returns_array risk_free_daily).2 = .val 5) ∧
       (npMean (returns_array.map (fun r => r - risk_free_daily)) < 0 →
          (risk_metrics returns_array risk_free_daily).2 = .val (-5)))) := by
  have h1 : ¬ (returns_array.length ≤ 1) := by omega
  have h2 : ¬ (returns_array.dedup.length ≤ 1) := by omega
  unfold risk_metrics
  rw [if_neg h1, if_neg h2]
  dsimp only
  constructor
  · intro hvar
    rw [if_neg (not_lt.mpr hvar)]
    refine ⟨fun hm => by rw [if_pos hm], fun hm => ?_, fun hm => ?_⟩
    · rw [if_neg (by linarith), npSign, if_pos hm]; norm_num
    · rw [if_neg (by linarith), npSign, if_neg (by linarith), if_pos hm]; norm_num
  · intro hvar
    rw [if_neg (not_lt.mpr hvar)]
    refine ⟨fun hm => by rw [if_pos hm], fun hm => ?_, fun hm => ?_⟩
    · rw [if_neg (by linarith), npSign, if_pos hm]; norm_num
    · rw [if_neg (by linarith), npSign, if_neg (by linarith), if_pos hm]; norm_num

/-- Witness for `risk_metrics_safeguard`: the array `[0, 1e-9]` has two
distinct values, excess variance `2.5e-19 ≤ 1e-16`, no downside returns,
and positive excess mean, so Sharpe and Sortino are both `5.0`. -/
theorem risk_metrics_safeguard_witness :
    (2 ≤ ([0, 1 / 10 ^ 9] : List ℚ).length ∧ 2 ≤ ([0, 1 / 10 ^ 9] : List ℚ).dedup.length ∧
      npVariance (([0, 1 / 10 ^ 9] : List ℚ).map (fun r => r - 0)) ≤ minStdThresholdSq ∧
      0 < npMean (([0, 1 / 10 ^ 9] : List ℚ).map (fun r => r - 0))) ∧
    (risk_metrics [0, 1 / 10 ^ 9] 0).1 = .val 5 ∧
    (risk_metrics [0, 1 / 10 ^ 9] 0).2 = .val 5 := by
  have hlen : 2 ≤ ([0, 1 / 10 ^ 9] : List ℚ).length := by decide!
  have hdis : 2 ≤ ([0, 1 / 10 ^ 9] : List ℚ).dedup.length := by decide!
  have hvar : npVariance (([0, 1 / 10 ^ 9] : List ℚ).map (fun r => r - 0)) ≤
      minStdThresholdSq := by decide!
  have hdvar : (if 0 < (([0, 1 / 10 ^ 9] : List ℚ).filter (fun r => r < 0)).length
      then npVariance (([0, 1 / 10 ^ 9] : List ℚ).filter (fun r => r < 0)) else 0) ≤
      minStdThresholdSq := by decide!
  have hm : 0 < npMean (([0, 1 / 10 ^ 9] : List ℚ).map (fun r => r - 0)) := by decide!
  exact ⟨⟨hlen, hdis, hvar, hm⟩,
    ((risk_metrics_safeguard [0, 1 / 10 ^ 9] 0 hlen hdis).1 hvar).2.1 hm,
    ((risk_metrics_safeguard [0, 1 / 10 ^ 9] 0 hlen hdis).2 hdvar).2.1 hm⟩

/-- The source-side and spec-side index recurrences agree. -/
lemma bootIndex_eq_specIndexSeq (n : ℕ) (starts : ℕ → ℕ) (conts : ℕ → Bool) :
    ∀ j, bootIndex n starts conts j = specIndexSeq n starts conts j := by
  intro j
  induction j with
  | zero => rfl
  | succ j ih => simp only [bootIndex, specIndexSeq, ih]

/-- C7.  For every integer block size `b ≥ 1` and non-empty data,
`stationary_bootstrap` returns exactly `num_samples` samples; sample `i`
is the list of input rows at the index sequence that starts at a drawn
index and, at each later step `j`, jumps to the fresh drawn index when the
uniform draw falls below `p = 1/b` and otherwise advances the previous
index by 1 modulo the data length — with sample length `L` defaulting to
the data length. -/
theorem stationary_bootstrap_matches_spec {α : Type} [Inhabited α] (data : List α)
    (block_size : ℤ) (num_samples : ℕ) (sample_length : Option ℕ) (seed : Option ℕ)
    (starts : ℕ → ℕ → ℕ) (uniforms : ℕ → ℕ → ℚ)
    (hb : 1 ≤ block_size) (hdata : data ≠ []) :
    (stationary_bootstrap data block_size num_samples sample_length seed starts uniforms).length
      = num_samples ∧
    ∀ i < num_samples,
      (stationary_bootstrap data block_size num_samples sample_length seed
          starts uniforms).getD i []
        = (List.range (sample_length.getD data.length)).map (fun j =>
            data.getD (specIndexSeq data.length (starts i)
              (fun k => uniforms i k < 1 / (block_size : ℚ)) j) default) := by
  have hmax : max 1 block_size = block_size := max_eq_right hb
  have hn : data.length ≠ 0 := fun h => hdata (List.length_eq_zero.mp h)
  constructor
  · simp [stationary_bootstrap]
  · intro i hi
    unfold stationary_bootstrap
    rw [List.getD_eq_getElem?_getD, List.getElem?_map, List.getElem?_range hi]
    dsimp only [Option.map_some', Option.getD_some]
    rw [if_neg hn, hmax]
    exact List.map_congr_left fun j _ => by
      rw [bootIndex_eq_specIndexSeq]

/-- Witness for `stationary_bootstrap_matches_spec`: three data rows,
block size 2, one sample with default length. -/
theorem stationary_bootstrap_matches_spec_witness :
    ((1:ℤ) ≤ 2 ∧ ([ (10:ℚ), 20, 30] : List ℚ) ≠ []) ∧
    ((stationary_bootstrap ([ (10:ℚ), 20, 30]) 2 1 none none
        (fun _ _ => 0) (fun _ _ => 1 / 4)).length = 1 ∧
     ∀ i < 1,
      (stationary_bootstrap ([ (10:ℚ), 20, 30]) 2 1 none none
          (fun _ _ => 0) (fun _ _ => 1 / 4)).getD i []
        = (List.range ((none : Option ℕ).getD ([ (10:ℚ), 20, 30] : List ℚ).length)).map
            (fun j => ([ (10:ℚ), 20, 30] : List ℚ).getD
              (specIndexSeq ([ (10:ℚ), 20, 30] : List ℚ).length ((fun _ _ => 0) i)
                (fun k => (fun _ _ => (1/4 : ℚ)) i k < 1 / ((2:ℤ) : ℚ)) j) default)) :=
  ⟨⟨by norm_num, by simp⟩,
    stationary_bootstrap_matches_spec ([ (10:ℚ), 20, 30]) 2 1 none none
      (fun _ _ => 0) (fun _ _ => 1 / 4) (by norm_num) (by simp)⟩

/-- The per-row trailing update only ever raises the stored stop: the
candidate is floored by the previous stop (`np.maximum`, fourelement.py
line 834) and the profit-lock rule only takes a further maximum. -/
lemma trailingUpdate_stop_le (p a x : ℚ) (t : Position) :
    t.stop_loss ≤ (trailingUpdate p a x t).stop_loss := by
  unfold trailingUpdate
  dsimp only
  split
  · exact le_trans (le_max_right _ _) (le_max_left _ _)
  · exact le_max_right _ _

/-- The trailing update does not change a row's position id. -/
lemma trailingUpdate_position_id (p a x : ℚ) (t : Position) :
    (trailingUpdate p a x t).position_id = t.position_id := rfl

/-- Every survivor `processOneExit` returns is the processed row itself,
possibly with a reduced `remaining_shares`; in particular its id and stop
are unchanged. -/
lemma processOneExit_surv (d : ℤ) (p T : ℚ) (r : Option String) (s : Ledger)
    (trade : Position) :
    ∀ t, (processOneExit d p T r s trade).2.2 = some t →
      t.position_id = trade.position_id ∧ t.stop_loss = trade.stop_loss := by
  intro t h
  unfold processOneExit at h
  try dsimp only at h
  try simp only [apply_ite (fun x : Ledger × ℚ × Option Position => x.2.2)] at h
  try dsimp only at h
  repeat' split at h
  all_goals
    first
      | (injection h with h'; subst h'; exact ⟨rfl, rfl⟩)
      | exact absurd h (by simp)

/-- Every row kept by one `exitStep` either was already kept or traces to
the processed row with unchanged id and stop. -/
lemma exitStep_kept (d : ℤ) (p T : ℚ) (r : Option String)
    (acc : Ledger × ℚ × List Position) (trade : Position) :
    ∀ t ∈ (exitStep d p T r acc trade).2.2, t ∈ acc.2.2 ∨
      (t.position_id = trade.position_id ∧ t.stop_loss = trade.stop_loss) := by
  intro t ht
  unfold exitStep at ht
  split at ht
  · rcases List.mem_append.mp ht with h | h
    · exact Or.inl h
    · exact Or.inr (processOneExit_surv d p T r acc.1 trade t (Option.mem_toList.mp h))
  · rcases List.mem_append.mp ht with h | h
    · exact Or.inl h
    · rcases List.mem_singleton.mp h with rfl
      exact Or.inr ⟨rfl, rfl⟩

/-- Every row kept by folding `exitStep` over a row list either was in
the initial kept list or traces to a processed row with unchanged id and
stop. -/
lemma exits_foldl_kept (d : ℤ) (p T : ℚ) (r : Option String) :
    ∀ (l : List Position) (acc : Ledger × ℚ × List Position),
      ∀ t ∈ (l.foldl (exitStep d p T r) acc).2.2,
        t ∈ acc.2.2 ∨ ∃ t₀ ∈ l, t.position_id = t₀.position_id ∧ t.stop_loss = t₀.stop_loss := by
  intro l
  induction l with
  | nil => exact fun acc t ht => Or.inl ht
  | cons x xs ih =>
    intro acc t ht
    rcases ih (exitStep d p T r acc x) t ht with h | ⟨t₀, ht₀, hh⟩
    · rcases exitStep_kept d p T r acc x t h with h' | hh
      · exact Or.inl h'
      · exact Or.inr ⟨x, List.mem_cons_self x xs, hh⟩
    · exact Or.inr ⟨t₀, List.mem_cons_of_mem x ht₀, hh⟩

/-- Every position still open after `process_exits` is an input position
with at most its `remaining_shares` changed: same id and same stop. -/
lemma process_exits_active (s : Ledger) (d : ℤ) (cp T : ℚ) (r : Option String) :
    ∀ t ∈ (process_exits s d cp T r).1.active_trades,
      ∃ t₀ ∈ s.active_trades, t.position_id = t₀.position_id ∧ t.stop_loss = t₀.stop_loss := by
  intro t ht
  unfold process_exits at ht
  split at ht
  · exact ⟨t, ht, rfl, rfl⟩
  · dsimp only at ht
    rcases exits_foldl_kept d (cp * (1 - 1 / 1000)) T r s.active_trades
        ({ s with active_trades := [] }, 0, []) t ht with h | ⟨t₀, ht₀, hh⟩
    · exact absurd h (List.not_mem_nil t)
    · exact ⟨t₀, ht₀, hh⟩

/-- Iterating the full-exit call of `trailing_stops` over the hit rows
preserves the trace of every survivor. -/
lemma foldl_process_exits_kept (d : ℤ) (cp : ℚ) :
    ∀ (hits : List Position) (st : Ledger),
      ∀ t ∈ (hits.foldl
          (fun acc _ => (process_exits acc d cp 0 (some "Trailing Stop")).1) st).active_trades,
        ∃ t₀ ∈ st.active_trades, t.position_id = t₀.position_id ∧ t.stop_loss = t₀.stop_loss := by
  intro hits
  induction hits with
  | nil => exact fun st t ht => ⟨t, ht, rfl, rfl⟩
  | cons x xs ih =>
    intro st t ht
    rcases ih _ t ht with ⟨t₁, ht₁, h1, h2⟩
    rcases process_exits_active st d cp 0 (some "Trailing Stop") t₁ ht₁ with ⟨t₀, ht₀, h3, h4⟩
    exact ⟨t₀, ht₀, h1.trans h3, h2.trans h4⟩

/-- `process_entry` at most appends a new row: the existing rows (and in
particular their stops) are untouched. -/
lemma process_entry_appends (s : Ledger) (cd : ℤ) (price pv risk atr adx : ℚ)
    (dir : Direction) :
    ∃ tail, (process_entry s cd price pv risk atr adx dir).1.active_trades
      = s.active_trades ++ tail := by
  unfold process_entry
  dsimp only
  repeat' split
  all_goals first | exact ⟨[], (List.append_nil _).symm⟩ | exact ⟨_, rfl⟩

/-- C3.  No ledger operation ever lowers a stored stop: every position
open after a `trailing_stops` call traces to an input position with the
same id and a stop at least as high (the update is floored by the old
stop); every position open after a `process_exits` call traces to an input
position with the same id and an *unchanged* stop; and `process_entry`
leaves all existing rows untouched (it at most appends the new one).
`position_health` mutates the ledger only through its `process_exits`
calls (fourelement.py lines 709, 719, 773), so stop_loss is non-decreasing
over every position's lifetime. -/
theorem stop_loss_never_lowered (s : Ledger) (current_price current_atr adx_value : ℚ)
    (current_date d2 : ℤ) (p2 T2 : ℚ) (r2 : Option String)
    (d3 : ℤ) (price3 pv3 risk3 atr3 adx3 : ℚ) (dir3 : Direction) :
    (∀ t ∈ (trailing_stops s current_price current_date current_atr adx_value).1.active_trades,
       ∃ t₀ ∈ s.active_trades, t.position_id = t₀.position_id ∧ t₀.stop_loss ≤ t.stop_loss) ∧
    (∀ t ∈ (process_exits s d2 p2 T2 r2).1.active_trades,
       ∃ t₀ ∈ s.active_trades, t.position_id = t₀.position_id ∧ t.stop_loss = t₀.stop_loss) ∧
    (∃ tail, (process_entry s d3 price3 pv3 risk3 atr3 adx3 dir3).1.active_trades
       = s.active_trades ++ tail) := by
  refine ⟨?_, process_exits_active s d2 p2 T2 r2,
    process_entry_appends s d3 price3 pv3 risk3 atr3 adx3 dir3⟩
  intro t ht
  unfold trailing_stops at ht
  split at ht
  · exact ⟨t, ht, rfl, le_refl _⟩
  · dsimp only at ht
    split at ht
    · rcases List.mem_map.mp ht with ⟨t₀, ht₀, rfl⟩
      exact ⟨t₀, ht₀, trailingUpdate_position_id _ _ _ _, trailingUpdate_stop_le _ _ _ _⟩
    · dsimp only at ht
      rcases foldl_process_exits_kept current_date current_price _ _ t ht with ⟨t₁, ht₁, h1, h2⟩
      rcases List.mem_map.mp ht₁ with ⟨t₀, ht₀, rfl⟩
      refine ⟨t₀, ht₀, h1.trans (trailingUpdate_position_id _ _ _ _), ?_⟩
      exact le_of_le_of_eq (trailingUpdate_stop_le _ _ _ _) h2.symm

/-- A concrete open position for exercising `stop_loss_never_lowered`:
entered at 100 with stop 75. -/
def posC3 : Position :=
  { entry_date := 0, direction := .Long, multiplier := 1, entry_price := 100, stop_loss := 75,
    take_profit := 130, position_size := 1 / 25, share_amount := 10, commission := 0,
    highest_close_since_entry := 100, position_id := 0, remaining_shares := 10 }

/-- A one-position ledger holding `posC3`. -/
def ledgerC3 : Ledger :=
  { TradeManager.init 25000 5 with
      active_trades := [posC3], position_count := 1, allocated_capital := 1000 }

/-- What `trailing_stops` at price 200, ATR 10, ADX 30 turns `posC3` into:
highest price 200 and stop raised to `200 − 2·1.5·10 = 170`. -/
def posC3' : Position :=
  { posC3 with highest_close_since_entry := 200, stop_loss := 170 }

/-- Witness for `stop_loss_never_lowered`: running `trailing_stops` on the
concrete one-position ledger keeps the position open with its stop raised
to 170, and the theorem traces it back to a stored position whose stop
(75) is at most 170. -/
theorem stop_loss_never_lowered_witness :
    posC3' ∈ (TradeManager.trailing_stops ledgerC3 200 0 10 30).1.active_trades ∧
    ∃ t₀ ∈ ledgerC3.active_trades, t₀.stop_loss ≤ posC3'.stop_loss := by
  have hmem : posC3' ∈ (TradeManager.trailing_stops ledgerC3 200 0 10 30).1.active_trades := by
    decide!
  obtain ⟨t₀, ht₀, -, hle⟩ :=
    (stop_loss_never_lowered ledgerC3 200 10 30 0 0 0 0 none 0 0 0 0 0 0 .Long).1 posC3' hmem
  exact ⟨hmem, t₀, ht₀, hle⟩

end Claims

end FourElement
